import Mathlib

/-!
Shallow embedding of the booking service in
`src/app/routes/booking.py`, `src/app/routes/cancel.py`,
`src/app/routes/upload.py`, `src/app/security/auth.py` and
`src/app/DB/models.py`.

The SQLAlchemy store is modelled as lists of records kept in insertion
order; `query(...).filter(col == v).first()` becomes `List.find?` on the
corresponding predicate, and a mutation of the fetched ORM object becomes
an in-place update of the first matching list element (`updateFirst`).
Autoincrement primary keys are modelled with explicit next-id counters.
The UUID booking reference and the server clock are environment inputs:
they are passed as arguments to `create_booking`, with freshness of the
reference as an explicit hypothesis where a theorem needs it.
-/

deriving instance DecidableEq for Except

/-- The whitespace characters Python `str.strip()` removes (restricted
to the ASCII ones; no field in this repository carries the exotic
Unicode whitespace where Python and this model would differ). -/
def isPyWhitespace (c : Char) : Bool :=
  c = ' ' || c = '\t' || c = '\n' || c = '\r' || c = '\x0b' || c = '\x0c'

/-- Python `str.strip()`: drop leading and trailing whitespace. -/
def pyStrip (s : String) : String :=
  String.mk
    (((s.data.dropWhile isPyWhitespace).reverse.dropWhile isPyWhitespace).reverse)

/-- A calendar date as produced by Python `datetime.date`. -/
structure PyDate where
  year : Nat
  month : Nat
  day : Nat
deriving DecidableEq

/-- A timestamp as produced by Python `datetime.datetime` (microseconds
are irrelevant to this code and omitted: the parsed formats carry none). -/
structure PyDateTime where
  year : Nat
  month : Nat
  day : Nat
  hour : Nat
  minute : Nat
  second : Nat
deriving DecidableEq

/-- The date component of a timestamp, Python `datetime.date()`. -/
def PyDateTime.date (dt : PyDateTime) : PyDate :=
  { year := dt.year, month := dt.month, day := dt.day }

/-- Python `date.__lt__`: lexicographic on (year, month, day). -/
def dateLt (a b : PyDate) : Bool :=
  a.year < b.year ||
    (a.year = b.year &&
      (a.month < b.month || (a.month = b.month && a.day < b.day)))

/-- Row of the `members` table (`src/app/DB/models.py`, class `Member`). -/
structure Member where
  id : Nat
  name : String
  surname : String
  booking_count : Int
  date_joined : PyDateTime
deriving DecidableEq

/-- Row of the `inventory` table (`src/app/DB/models.py`, class `Inventory`). -/
structure Inventory where
  id : Nat
  title : String
  description : String
  remaining_count : Int
  expiration_date : PyDate
deriving DecidableEq

/-- Row of the `bookings` table (`src/app/DB/models.py`, class `Booking`). -/
structure Booking where
  id : Nat
  booking_reference : String
  member_id : Nat
  inventory_id : Nat
  booking_datetime : PyDateTime
  is_active : Bool
deriving DecidableEq

/-- The database state: the three tables in insertion order plus the
autoincrement counters for the three integer primary keys. -/
structure DBState where
  members : List Member
  inventory : List Inventory
  bookings : List Booking
  nextMemberId : Nat
  nextInventoryId : Nat
  nextBookingId : Nat
deriving DecidableEq

/-- The error outcomes of the routes, keyed by the distinct
`HTTPException`s raised in the source. -/
inductive Err where
  | notFoundMember
  | notFoundItem
  | quotaExceeded
  | outOfStock
  | expired
  | notFoundActiveBooking
  | unauthorized
deriving DecidableEq

/-- The HTTP status code each `HTTPException` in the source carries. -/
def statusCode : Err → Nat
  | .notFoundMember => 404
  | .notFoundItem => 404
  | .quotaExceeded => 400
  | .outOfStock => 400
  | .expired => 400
  | .notFoundActiveBooking => 404
  | .unauthorized => 401

/-- Update the first element satisfying `p` by `f`, leaving the rest of
the list unchanged: the effect of mutating the ORM object returned by
`query(...).first()`. -/
def updateFirst (p : α → Bool) (f : α → α) : List α → List α
  | [] => []
  | x :: xs => if p x then f x :: xs else x :: updateFirst p f xs

/-- `db.query(Member).filter(Member.id == i).first()`. -/
def findMember (db : DBState) (i : Nat) : Option Member :=
  db.members.find? (fun m => m.id == i)

/-- `db.query(Inventory).filter(Inventory.id == i).first()`. -/
def findInventory (db : DBState) (i : Nat) : Option Inventory :=
  db.inventory.find? (fun it => it.id == i)

/-- `db.query(Booking).filter(Booking.booking_reference == r).first()`. -/
def findBookingByRef (db : DBState) (r : String) : Option Booking :=
  db.bookings.find? (fun b => b.booking_reference == r)

/-- `db.query(Booking).filter(Booking.member_id == i, Booking.is_active == True).count()`
in `create_booking` (`src/app/routes/booking.py` lines 67-70). -/
def activeBookingsCount (db : DBState) (i : Nat) : Nat :=
  (db.bookings.filter (fun b => b.member_id == i && b.is_active)).length

/-- `create_booking` (`src/app/routes/booking.py` lines 41-111).  `ref`
is the UUID produced by `generate_uuid` and `now` the server clock, both
environment inputs.  An `HTTPException` aborts before `db.commit()`, so
the error cases leave the state unchanged. -/
def create_booking (db : DBState) (member_id inventory_id : Nat)
    (ref : String) (now : PyDateTime) : DBState × Except Err Booking :=
  match db.members.find? (fun m => m.id == member_id) with
  | none => (db, .error .notFoundMember)
  | some member =>
    match db.inventory.find? (fun it => it.id == inventory_id) with
    | none => (db, .error .notFoundItem)
    | some inventory_item =>
      if 2 ≤ activeBookingsCount db member.id then
        (db, .error .quotaExceeded)
      else if inventory_item.remaining_count < 1 then
        (db, .error .outOfStock)
      else if dateLt inventory_item.expiration_date now.date then
        (db, .error .expired)
      else
        let booking : Booking :=
          { id := db.nextBookingId
            booking_reference := ref
            member_id := member.id
            inventory_id := inventory_item.id
            booking_datetime := now
            is_active := true }
        ({ db with
            bookings := db.bookings ++ [booking]
            inventory := updateFirst (fun it => it.id == inventory_item.id)
              (fun it => { it with remaining_count := it.remaining_count - 1 })
              db.inventory
            members := updateFirst (fun m => m.id == member.id)
              (fun m => { m with booking_count := m.booking_count + 1 })
              db.members
            nextBookingId := db.nextBookingId + 1,
          }, .ok booking)

/-- `cancel_booking` (`src/app/routes/cancel.py` lines 41-76).  The two
404 cases (`not booking or not booking.is_active`) raise before any
mutation; on success the booking is deactivated, the item count restored
when the item still exists, and the member count decremented when the
member exists and its count is positive. -/
def cancel_booking (db : DBState) (booking_reference : String) :
    DBState × Except Err Booking :=
  match db.bookings.find? (fun b => b.booking_reference == booking_reference) with
  | none => (db, .error .notFoundActiveBooking)
  | some booking =>
    if !booking.is_active then (db, .error .notFoundActiveBooking)
    else
      let db1 := { db with
        bookings := updateFirst
          (fun b => b.booking_reference == booking_reference)
          (fun b => { b with is_active := false }) db.bookings }
      let db2 :=
        match db1.inventory.find? (fun it => it.id == booking.inventory_id) with
        | none => db1
        | some _ => { db1 with
            inventory := updateFirst (fun it => it.id == booking.inventory_id)
              (fun it => { it with remaining_count := it.remaining_count + 1 })
              db1.inventory }
      let db3 :=
        match db2.members.find? (fun m => m.id == booking.member_id) with
        | none => db2
        | some member =>
          if 0 < member.booking_count then
            { db2 with
              members := updateFirst (fun m => m.id == booking.member_id)
                (fun m => { m with booking_count := m.booking_count - 1 })
                db2.members }
          else db2
      (db3, .ok { booking with is_active := false })

/-- Value of an ASCII digit character. -/
def digitVal (c : Char) : Nat := c.toNat - 48

/-- Continuation of Python `int` digit parsing: digits with single
underscores allowed only between digits. -/
def digitsCore (acc : Nat) : List Char → Option Nat
  | [] => some acc
  | c :: rest =>
    if c.isDigit then digitsCore (10 * acc + digitVal c) rest
    else if c = '_' then
      match rest with
      | [] => none
      | d :: rest2 =>
        if d.isDigit then digitsCore (10 * acc + digitVal d) rest2 else none
    else none

/-- A nonempty ASCII digit run (with Python-style inner underscores). -/
def digitsVal : List Char → Option Nat
  | [] => none
  | c :: rest => if c.isDigit then digitsCore (digitVal c) rest else none

/-- Python `int(s)` for an already-stripped string: optional sign then
digits; returns `none` where Python raises `ValueError`. -/
def pythonInt (s : String) : Option Int :=
  match s.data with
  | '+' :: rest => (digitsVal rest).map Int.ofNat
  | '-' :: rest => (digitsVal rest).map (fun n => -(n : Int))
  | cs => (digitsVal cs).map Int.ofNat

/-- Consume exactly one digit. -/
def take1Digit : List Char → Option (Nat × List Char)
  | c :: rest => if c.isDigit then some (digitVal c, rest) else none
  | _ => none

/-- Consume exactly two digits. -/
def take2Digits : List Char → Option (Nat × List Char)
  | a :: b :: rest =>
    if a.isDigit && b.isDigit then some (10 * digitVal a + digitVal b, rest)
    else none
  | _ => none

/-- Consume exactly four digits (the `%Y` field of `strptime`). -/
def take4Digits : List Char → Option (Nat × List Char)
  | a :: b :: c :: d :: rest =>
    if a.isDigit && b.isDigit && c.isDigit && d.isDigit then
      some (1000 * digitVal a + 100 * digitVal b + 10 * digitVal c + digitVal d, rest)
    else none
  | _ => none

/-- The ordered match alternatives of a 1-or-2 digit `strptime` field
(CPython tries the two-digit alternatives of the field regex first). -/
def fieldCands (twoOk oneOk : Nat → Bool) (cs : List Char) :
    List (Nat × List Char) :=
  (match take2Digits cs with
   | some (v, r) => if twoOk v then [(v, r)] else []
   | none => []) ++
  (match take1Digit cs with
   | some (v, r) => if oneOk v then [(v, r)] else []
   | none => [])

/-- `%m`: regex `1[0-2]|0[1-9]|[1-9]`. -/
def monthCands : List Char → List (Nat × List Char) :=
  fieldCands (fun v => 1 ≤ v && v ≤ 12) (fun v => 1 ≤ v && v ≤ 9)

/-- `%d`: regex `3[01]|[12]\d|0[1-9]|[1-9]`. -/
def dayCands : List Char → List (Nat × List Char) :=
  fieldCands (fun v => 1 ≤ v && v ≤ 31) (fun v => 1 ≤ v && v ≤ 9)

/-- `%H`: regex `2[0-3]|[0-1]\d|\d`. -/
def hourCands : List Char → List (Nat × List Char) :=
  fieldCands (fun v => v ≤ 23) (fun _ => true)

/-- `%M` and `%S`: regex `[0-5]\d|\d`. -/
def minSecCands : List Char → List (Nat × List Char) :=
  fieldCands (fun v => v ≤ 59) (fun _ => true)

/-- Consume a literal character of the format string. -/
def litChar (c : Char) : List Char → Option (List Char)
  | x :: rest => if x = c then some rest else none
  | _ => none

/-- Ordered-alternative backtracking: take the first candidate whose
continuation succeeds, as regex alternation does. -/
def firstSome (cands : List (Nat × List Char))
    (k : Nat → List Char → Option α) : Option α :=
  match cands with
  | [] => none
  | (v, r) :: more =>
    match k v r with
    | some out => some out
    | none => firstSome more k

/-- Gregorian leap year, as `datetime` uses. -/
def isLeap (y : Nat) : Bool :=
  y % 4 = 0 && (y % 100 ≠ 0 || y % 400 = 0)

/-- Days in a month, as `datetime` validates. -/
def daysInMonth (y m : Nat) : Nat :=
  if m = 2 then (if isLeap y then 29 else 28)
  else if m = 4 || m = 6 || m = 9 || m = 11 then 30
  else 31

/-- The validation `datetime.datetime(...)` applies after the regex
match: year at least `MINYEAR` and day within the month. -/
def validYMD (y m d : Nat) : Bool :=
  1 ≤ y && d ≤ daysInMonth y m

/-- `datetime.strptime(raw, "%Y-%m-%d" ++ sep ++ "%H:%M:%S")` where
`sep` is the literal separating date and time. -/
def parseMemberDateWithSep (sep : Char) (cs : List Char) : Option PyDateTime :=
  match take4Digits cs with
  | none => none
  | some (y, r1) =>
    match litChar '-' r1 with
    | none => none
    | some r2 =>
      firstSome (monthCands r2) (fun mo r3 =>
        match litChar '-' r3 with
        | none => none
        | some r4 =>
          firstSome (dayCands r4) (fun d r5 =>
            match litChar sep r5 with
            | none => none
            | some r6 =>
              firstSome (hourCands r6) (fun h r7 =>
                match litChar ':' r7 with
                | none => none
                | some r8 =>
                  firstSome (minSecCands r8) (fun mi r9 =>
                    match litChar ':' r9 with
                    | none => none
                    | some r10 =>
                      firstSome (minSecCands r10) (fun s r11 =>
                        if r11.isEmpty && validYMD y mo d then
                          some { year := y, month := mo, day := d,
                                 hour := h, minute := mi, second := s }
                        else none)))))

/-- `parse_member_date` (`src/app/routes/upload.py` lines 112-122): try
format `%Y-%m-%d %H:%M:%S` then `%Y-%m-%dT%H:%M:%S`, `none` on failure. -/
def parse_member_date (raw : String) : Option PyDateTime :=
  match parseMemberDateWithSep ' ' raw.data with
  | some dt => some dt
  | none => parseMemberDateWithSep 'T' raw.data

/-- `parse_inventory_date` (`src/app/routes/upload.py` lines 124-133):
`datetime.strptime(raw, "%d/%m/%Y").date()`, `none` on failure. -/
def parse_inventory_date (raw : String) : Option PyDate :=
  firstSome (dayCands raw.data) (fun d r1 =>
    match litChar '/' r1 with
    | none => none
    | some r2 =>
      firstSome (monthCands r2) (fun mo r3 =>
        match litChar '/' r3 with
        | none => none
        | some r4 =>
          match take4Digits r4 with
          | none => none
          | some (y, r5) =>
            if r5.isEmpty && validYMD y mo d then
              some { year := y, month := mo, day := d }
            else none))

/-- A row of the members CSV as `csv.DictReader` yields it: each field
is absent (`none`) or a string; `row.get(k, d)` is `(·.getD d)`. -/
structure MemberRow where
  name : Option String
  surname : Option String
  booking_count : Option String
  date_joined : Option String
deriving DecidableEq

/-- A row of the inventory CSV as `csv.DictReader` yields it. -/
structure InventoryRow where
  title : Option String
  description : Option String
  remaining_count : Option String
  expiration_date : Option String
deriving DecidableEq

/-- The body of the row loop of `upload_members_file`
(`src/app/routes/upload.py` lines 49-69), with the loop written as
recursion over the remaining rows and the accumulated `rows_processed`. -/
def uploadMembersLoop : List MemberRow → DBState → Nat → DBState × Nat
  | [], db, n => (db, n)
  | row :: rest, db, n =>
    match parse_member_date (pyStrip (row.date_joined.getD "")) with
    | none => uploadMembersLoop rest db n
    | some joined_datetime =>
      let booking_count := (pythonInt (pyStrip (row.booking_count.getD "0"))).getD 0
      let member : Member :=
        { id := db.nextMemberId
          name := pyStrip (row.name.getD "")
          surname := pyStrip (row.surname.getD "")
          booking_count := booking_count
          date_joined := joined_datetime }
      uploadMembersLoop rest
        { db with members := db.members ++ [member]
                  nextMemberId := db.nextMemberId + 1 } (n + 1)

/-- `upload_members_file` (`src/app/routes/upload.py` lines 37-72):
process every row, returning the committed state and `rows_processed`. -/
def upload_members_file (rows : List MemberRow) (db : DBState) : DBState × Nat :=
  uploadMembersLoop rows db 0

/-- The body of the row loop of `upload_inventory_file`
(`src/app/routes/upload.py` lines 88-106). -/
def uploadInventoryLoop : List InventoryRow → DBState → Nat → DBState × Nat
  | [], db, n => (db, n)
  | row :: rest, db, n =>
    match parse_inventory_date (pyStrip (row.expiration_date.getD "")) with
    | none => uploadInventoryLoop rest db n
    | some expiration_date =>
      let remaining := (pythonInt (pyStrip (row.remaining_count.getD "0"))).getD 0
      let item : Inventory :=
        { id := db.nextInventoryId
          title := pyStrip (row.title.getD "")
          description := pyStrip (row.description.getD "")
          remaining_count := remaining
          expiration_date := expiration_date }
      uploadInventoryLoop rest
        { db with inventory := db.inventory ++ [item]
                  nextInventoryId := db.nextInventoryId + 1 } (n + 1)

/-- `upload_inventory_file` (`src/app/routes/upload.py` lines 76-109). -/
def upload_inventory_file (rows : List InventoryRow) (db : DBState) :
    DBState × Nat :=
  uploadInventoryLoop rows db 0

/-- `api_key_auth` (`src/app/security/auth.py` lines 9-19): reject when
the `x-api-key` header is missing or falsy (the empty string), or when
it differs from the configured `API_KEY` — a Python `str` never equals
`None`, so an unset `API_KEY` rejects every header. -/
def api_key_auth (x_api_key : Option String) (api_key_env : Option String) :
    Except Err String :=
  match x_api_key with
  | none => .error .unauthorized
  | some k =>
    if k = "" then .error .unauthorized
    else
      match api_key_env with
      | none => .error .unauthorized
      | some cfg => if k = cfg then .ok k else .error .unauthorized

/-- The `/members` upload endpoint with its `Depends(api_key_auth)`
dependency (`src/app/routes/upload.py` line 36): FastAPI evaluates the
dependency before the endpoint body runs, so an auth failure returns 401
with the database untouched. -/
def upload_members_endpoint (x_api_key api_key_env : Option String)
    (rows : List MemberRow) (db : DBState) : DBState × Except Err Nat :=
  match api_key_auth x_api_key api_key_env with
  | .error e => (db, .error e)
  | .ok _ =>
    let out := upload_members_file rows db
    (out.1, .ok out.2)

/-- The `/inventory` upload endpoint with its `Depends(api_key_auth)`
dependency (`src/app/routes/upload.py` line 75). -/
def upload_inventory_endpoint (x_api_key api_key_env : Option String)
    (rows : List InventoryRow) (db : DBState) : DBState × Except Err Nat :=
  match api_key_auth x_api_key api_key_env with
  | .error e => (db, .error e)
  | .ok _ =>
    let out := upload_inventory_file rows db
    (out.1, .ok out.2)

/-! ### General lemmas about the store model -/

/-- A found element splits the list into a prefix with no match, the
element, and a suffix; `updateFirst` rewrites exactly that element. -/
theorem updateFirst_split {p : α → Bool} {f : α → α} {l : List α} {a : α}
    (h : l.find? p = some a) :
    ∃ l₁ l₂, l = l₁ ++ a :: l₂ ∧ (∀ x ∈ l₁, p x = false) ∧
      updateFirst p f l = l₁ ++ f a :: l₂ := by
  induction l with
  | nil => simp [List.find?] at h
  | cons x xs ih =>
    by_cases hp : p x
    · rw [List.find?_cons_of_pos _ hp] at h
      have hxa : x = a := by simpa using h
      subst hxa
      exact ⟨[], xs, by simp, by simp, by simp [updateFirst, hp]⟩
    · rw [List.find?_cons_of_neg _ hp] at h
      obtain ⟨l₁, l₂, hl, hnone, hupd⟩ := ih h
      refine ⟨x :: l₁, l₂, by simp [hl], ?_, ?_⟩
      · intro y hy
        rcases List.mem_cons.mp hy with rfl | hy
        · simpa using hp
        · exact hnone y hy
      · simp [updateFirst, hp, hupd]

/-- When nothing matches, `updateFirst` is the identity. -/
theorem updateFirst_of_find?_none {p : α → Bool} {f : α → α} {l : List α}
    (h : l.find? p = none) : updateFirst p f l = l := by
  induction l with
  | nil => rfl
  | cons x xs ih =>
    rw [List.find?_cons] at h
    by_cases hp : p x
    · simp [hp] at h
    · simp [updateFirst, hp]
      exact ih (by simpa [hp] using h)

/-- Every element of `updateFirst p f l` is an element of `l` or the
image under `f` of a matching element of `l`. -/
theorem mem_updateFirst {p : α → Bool} {f : α → α} {l : List α} {y : α}
    (h : y ∈ updateFirst p f l) :
    y ∈ l ∨ ∃ a ∈ l, p a = true ∧ y = f a := by
  induction l with
  | nil => simp [updateFirst] at h
  | cons x xs ih =>
    by_cases hp : p x
    · simp only [updateFirst, if_pos hp] at h
      rcases List.mem_cons.mp h with rfl | hmem
      · exact Or.inr ⟨x, List.mem_cons_self .., hp, rfl⟩
      · exact Or.inl (List.mem_cons_of_mem _ hmem)
    · simp only [updateFirst, if_neg hp] at h
      rcases List.mem_cons.mp h with rfl | hmem
      · exact Or.inl (List.mem_cons_self ..)
      · rcases ih hmem with hy | ⟨a, ha, hpa, hfa⟩
        · exact Or.inl (List.mem_cons_of_mem _ hy)
        · exact Or.inr ⟨a, List.mem_cons_of_mem _ ha, hpa, hfa⟩

/-- `find?` skips a prefix in which nothing matches. -/
theorem find?_append_of_none {p : α → Bool} {l₁ l₂ : List α}
    (h : ∀ x ∈ l₁, p x = false) :
    (l₁ ++ l₂).find? p = l₂.find? p := by
  induction l₁ with
  | nil => rfl
  | cons x xs ih =>
    have hx : p x = false := h x (List.mem_cons_self ..)
    simp only [List.cons_append, List.find?_cons, hx]
    exact ih (fun y hy => h y (List.mem_cons_of_mem _ hy))

/-- After `updateFirst p f`, `find? p` returns the rewritten element,
provided `f` preserves the predicate on it. -/
theorem find?_updateFirst {p : α → Bool} {f : α → α} {l : List α} {a : α}
    (h : l.find? p = some a) (hf : p (f a) = true) :
    (updateFirst p f l).find? p = some (f a) := by
  obtain ⟨l₁, l₂, _, hnone, hupd⟩ := updateFirst_split (f := f) h
  rw [hupd, find?_append_of_none hnone, List.find?_cons_of_pos _ hf]

/-- Filtering by a predicate that is false on the rewritten element and
its image is unaffected by `updateFirst`: the frame condition of a
single-row update. -/
theorem filter_updateFirst_of_ne {l : List α} {p q : α → Bool} {f : α → α}
    {a : α} (h : l.find? p = some a) (hqa : q a = false)
    (hqfa : q (f a) = false) :
    (updateFirst p f l).filter q = l.filter q := by
  obtain ⟨l₁, l₂, hl, _, hupd⟩ := updateFirst_split (f := f) h
  rw [hupd, hl]
  simp [List.filter_append, List.filter_cons, hqa, hqfa]

/-! ### C1: effects of a successful `create_booking` -/

/-- C1: a successful `create_booking(member_id, item_id)` performs
exactly three writes: it appends a new Booking that is active, carries
the server timestamp and the freshly generated reference (and the next
autoincrement id), it decreases the item's `remaining_count` by exactly
1, and it increases the member's `booking_count` by exactly 1; rows with
any other id are untouched, reference uniqueness is preserved, and the
created booking is returned. -/
theorem create_booking_success_effects
    (db db' : DBState) (member_id inventory_id : Nat) (ref : String)
    (now : PyDateTime) (bk : Booking)
    (hx : create_booking db member_id inventory_id ref now = (db', .ok bk))
    (hfresh : ∀ b ∈ db.bookings, b.booking_reference ≠ ref)
    (hrefs : (db.bookings.map (fun b => b.booking_reference)).Nodup) :
    bk.is_active = true ∧ bk.booking_reference = ref ∧
    bk.booking_datetime = now ∧ bk.id = db.nextBookingId ∧
    db'.bookings = db.bookings ++ [bk] ∧
    (db'.bookings.map (fun b => b.booking_reference)).Nodup ∧
    (∃ item, findInventory db inventory_id = some item ∧
      findInventory db' inventory_id =
        some { item with remaining_count := item.remaining_count - 1 }) ∧
    (∃ mem, findMember db member_id = some mem ∧
      findMember db' member_id =
        some { mem with booking_count := mem.booking_count + 1 }) ∧
    (∀ j, j ≠ inventory_id →
      db'.inventory.filter (fun it => it.id == j) =
        db.inventory.filter (fun it => it.id == j)) ∧
    (∀ j, j ≠ member_id →
      db'.members.filter (fun m => m.id == j) =
        db.members.filter (fun m => m.id == j)) := by
  unfold create_booking at hx
  split at hx
  · simp at hx
  rename_i member hm
  split at hx
  · simp at hx
  rename_i item hi
  have hmemid : member.id = member_id := by simpa using List.find?_some hm
  have hitemid : item.id = inventory_id := by simpa using List.find?_some hi
  split at hx
  · simp at hx
  split at hx
  · simp at hx
  split at hx
  · simp at hx
  simp only [hmemid, hitemid, Prod.mk.injEq, Except.ok.injEq] at hx
  obtain ⟨hdb, hbk⟩ := hx
  subst hdb
  subst hbk
  refine ⟨rfl, rfl, rfl, rfl, rfl, ?_, ?_, ?_, ?_, ?_⟩
  · rw [List.map_append]
    refine List.Nodup.append hrefs (by simp) ?_
    intro x hx1 hx2
    simp only [List.map_cons, List.map_nil, List.mem_singleton] at hx2
    subst hx2
    obtain ⟨b, hb, hbr⟩ := List.mem_map.mp hx1
    exact hfresh b hb hbr
  · refine ⟨item, hi, ?_⟩
    show (updateFirst (fun it => it.id == inventory_id) _
      db.inventory).find? (fun it => it.id == inventory_id) = _
    exact find?_updateFirst hi (by simp [hitemid])
  · refine ⟨member, hm, ?_⟩
    show (updateFirst (fun m => m.id == member_id) _
      db.members).find? (fun m => m.id == member_id) = _
    exact find?_updateFirst hm (by simp [hmemid])
  · intro j hj
    exact filter_updateFirst_of_ne hi (by simp [hitemid, Ne.symm hj])
      (by simp [hitemid, Ne.symm hj])
  · intro j hj
    exact filter_updateFirst_of_ne hm (by simp [hmemid, Ne.symm hj])
      (by simp [hmemid, Ne.symm hj])

/-- A concrete member used by the evaluation witnesses. -/
def wMember : Member :=
  { id := 1, name := "J", surname := "D", booking_count := 0,
    date_joined := { year := 2024, month := 1, day := 1, hour := 10, minute := 0, second := 0 } }

/-- A concrete inventory item used by the evaluation witnesses. -/
def wItem : Inventory :=
  { id := 1, title := "T", description := "E", remaining_count := 5,
    expiration_date := { year := 2030, month := 12, day := 31 } }

/-- A concrete clock reading used by the evaluation witnesses. -/
def wNow : PyDateTime :=
  { year := 2026, month := 10, day := 12, hour := 0, minute := 0, second := 0 }

/-- A concrete pre-state: one member, one item, no bookings. -/
def wDB : DBState :=
  { members := [wMember], inventory := [wItem], bookings := [],
    nextMemberId := 2, nextInventoryId := 2, nextBookingId := 1 }

/-- The booking `create_booking wDB 1 1 "r1" wNow` creates. -/
def wBk : Booking :=
  { id := 1, booking_reference := "r1", member_id := 1, inventory_id := 1,
    booking_datetime := wNow, is_active := true }

/-- The post-state of `create_booking wDB 1 1 "r1" wNow`. -/
def wDB1 : DBState :=
  { members := [{ wMember with booking_count := 1 }],
    inventory := [{ wItem with remaining_count := 4 }],
    bookings := [wBk],
    nextMemberId := 2, nextInventoryId := 2, nextBookingId := 2 }

/-- C1 witness: the success-effects theorem evaluated on the concrete
one-member one-item store. -/
theorem create_booking_success_effects_witness :
    wBk.is_active = true ∧ wBk.booking_reference = "r1" ∧
    wBk.booking_datetime = wNow ∧ wBk.id = wDB.nextBookingId ∧
    wDB1.bookings = wDB.bookings ++ [wBk] ∧
    (wDB1.bookings.map (fun b => b.booking_reference)).Nodup ∧
    (∃ item, findInventory wDB 1 = some item ∧
      findInventory wDB1 1 =
        some { item with remaining_count := item.remaining_count - 1 }) ∧
    (∃ mem, findMember wDB 1 = some mem ∧
      findMember wDB1 1 =
        some { mem with booking_count := mem.booking_count + 1 }) ∧
    (∀ j, j ≠ 1 →
      wDB1.inventory.filter (fun it => it.id == j) =
        wDB.inventory.filter (fun it => it.id == j)) ∧
    (∀ j, j ≠ 1 →
      wDB1.members.filter (fun m => m.id == j) =
        wDB.members.filter (fun m => m.id == j)) :=
  create_booking_success_effects wDB wDB1 1 1 "r1" wNow wBk (by decide)
    (by simp [wDB]) (by simp [wDB])

/-! ### C2: effects of a successful `cancel_booking` -/

/-- C2: a successful `cancel_booking(reference)` deactivates the
targeted booking and returns it; the referenced item's
`remaining_count` is incremented by 1 when the item exists and the
inventory is untouched when it does not (tolerated silently, the call
still succeeding); the member's `booking_count` is decremented by 1
under the clamped floor that never takes a non-negative count below 0. -/
theorem cancel_booking_success_effects
    (db db' : DBState) (ref : String) (bk : Booking)
    (hx : cancel_booking db ref = (db', .ok bk)) :
    bk.is_active = false ∧
    (∃ b0, findBookingByRef db ref = some b0 ∧ b0.is_active = true ∧
      bk = { b0 with is_active := false }) ∧
    findBookingByRef db' ref = some bk ∧
    (findInventory db bk.inventory_id = none → db'.inventory = db.inventory) ∧
    (∀ item, findInventory db bk.inventory_id = some item →
      findInventory db' bk.inventory_id =
        some { item with remaining_count := item.remaining_count + 1 }) ∧
    (∀ mem, findMember db bk.member_id = some mem →
      ∃ mem', findMember db' bk.member_id = some mem' ∧
        (0 < mem.booking_count → mem'.booking_count = mem.booking_count - 1) ∧
        (0 ≤ mem.booking_count → 0 ≤ mem'.booking_count)) := by
  unfold cancel_booking at hx
  split at hx
  · simp at hx
  rename_i booking hb
  split at hx
  · simp at hx
  rename_i hact
  have hactive : booking.is_active = true := by
    revert hact
    cases booking.is_active <;> simp
  have hbref : booking.booking_reference = ref := by
    simpa using List.find?_some hb
  dsimp only at hx
  cases hinv : List.find? (fun it => it.id == booking.inventory_id)
      db.inventory with
  | none =>
    rw [hinv] at hx
    dsimp only at hx
    cases hmem : List.find? (fun m => m.id == booking.member_id)
        db.members with
    | none =>
      rw [hmem] at hx
      dsimp only at hx
      simp only [Prod.mk.injEq, Except.ok.injEq] at hx
      obtain ⟨hdb, hbk⟩ := hx
      subst hdb
      subst hbk
      refine ⟨rfl, ⟨booking, hb, hactive, rfl⟩,
        find?_updateFirst hb (by simp [hbref]), fun _ => rfl, ?_, ?_⟩
      · intro item hitem
        unfold findInventory at hitem
        rw [hinv] at hitem
        simp at hitem
      · intro mem hm
        unfold findMember at hm
        rw [hmem] at hm
        simp at hm
    | some mem =>
      rw [hmem] at hx
      dsimp only at hx
      by_cases hpos : 0 < mem.booking_count
      · rw [if_pos hpos] at hx
        simp only [Prod.mk.injEq, Except.ok.injEq] at hx
        obtain ⟨hdb, hbk⟩ := hx
        subst hdb
        subst hbk
        refine ⟨rfl, ⟨booking, hb, hactive, rfl⟩,
          find?_updateFirst hb (by simp [hbref]), fun _ => rfl, ?_, ?_⟩
        · intro item hitem
          unfold findInventory at hitem
          rw [hinv] at hitem
          simp at hitem
        · intro m hm
          unfold findMember at hm
          rw [hmem] at hm
          obtain rfl : mem = m := by simpa using hm
          refine ⟨_, find?_updateFirst hmem
            (by simpa using List.find?_some hmem), fun _ => rfl, ?_⟩
          intro _
          show (0 : Int) ≤ mem.booking_count - 1
          omega
      · rw [if_neg hpos] at hx
        simp only [Prod.mk.injEq, Except.ok.injEq] at hx
        obtain ⟨hdb, hbk⟩ := hx
        subst hdb
        subst hbk
        refine ⟨rfl, ⟨booking, hb, hactive, rfl⟩,
          find?_updateFirst hb (by simp [hbref]), fun _ => rfl, ?_, ?_⟩
        · intro item hitem
          unfold findInventory at hitem
          rw [hinv] at hitem
          simp at hitem
        · intro m hm
          unfold findMember at hm
          rw [hmem] at hm
          obtain rfl : mem = m := by simpa using hm
          exact ⟨mem, hmem, fun h0 => absurd h0 hpos, fun h0 => h0⟩
  | some itm =>
    rw [hinv] at hx
    dsimp only at hx
    cases hmem : List.find? (fun m => m.id == booking.member_id)
        db.members with
    | none =>
      rw [hmem] at hx
      dsimp only at hx
      simp only [Prod.mk.injEq, Except.ok.injEq] at hx
      obtain ⟨hdb, hbk⟩ := hx
      subst hdb
      subst hbk
      refine ⟨rfl, ⟨booking, hb, hactive, rfl⟩,
        find?_updateFirst hb (by simp [hbref]), ?_, ?_, ?_⟩
      · intro hnone
        unfold findInventory at hnone
        rw [hinv] at hnone
        simp at hnone
      · intro item hitem
        unfold findInventory at hitem
        rw [hinv] at hitem
        obtain rfl : itm = item := by simpa using hitem
        exact find?_updateFirst hinv (by simpa using List.find?_some hinv)
      · intro mem hm
        unfold findMember at hm
        rw [hmem] at hm
        simp at hm
    | some mem =>
      rw [hmem] at hx
      dsimp only at hx
      by_cases hpos : 0 < mem.booking_count
      · rw [if_pos hpos] at hx
        simp only [Prod.mk.injEq, Except.ok.injEq] at hx
        obtain ⟨hdb, hbk⟩ := hx
        subst hdb
        subst hbk
        refine ⟨rfl, ⟨booking, hb, hactive, rfl⟩,
          find?_updateFirst hb (by simp [hbref]), ?_, ?_, ?_⟩
        · intro hnone
          unfold findInventory at hnone
          rw [hinv] at hnone
          simp at hnone
        · intro item hitem
          unfold findInventory at hitem
          rw [hinv] at hitem
          obtain rfl : itm = item := by simpa using hitem
          exact find?_updateFirst hinv (by simpa using List.find?_some hinv)
        · intro m hm
          unfold findMember at hm
          rw [hmem] at hm
          obtain rfl : mem = m := by simpa using hm
          refine ⟨_, find?_updateFirst hmem
            (by simpa using List.find?_some hmem), fun _ => rfl, ?_⟩
          intro _
          show (0 : Int) ≤ mem.booking_count - 1
          omega
      · rw [if_neg hpos] at hx
        simp only [Prod.mk.injEq, Except.ok.injEq] at hx
        obtain ⟨hdb, hbk⟩ := hx
        subst hdb
        subst hbk
        refine ⟨rfl, ⟨booking, hb, hactive, rfl⟩,
          find?_updateFirst hb (by simp [hbref]), ?_, ?_, ?_⟩
        · intro hnone
          unfold findInventory at hnone
          rw [hinv] at hnone
          simp at hnone
        · intro item hitem
          unfold findInventory at hitem
          rw [hinv] at hitem
          obtain rfl : itm = item := by simpa using hitem
          exact find?_updateFirst hinv (by simpa using List.find?_some hinv)
        · intro mem2 hm
          unfold findMember at hm
          rw [hmem] at hm
          obtain rfl : mem = mem2 := by simpa using hm
          exact ⟨mem, hmem, fun h0 => absurd h0 hpos, fun h0 => h0⟩

/-- The cancelled form of `wBk`. -/
def wBkC : Booking := { wBk with is_active := false }

/-- The post-state of `cancel_booking wDB1 "r1"`. -/
def wDB2 : DBState :=
  { members := [wMember], inventory := [wItem], bookings := [wBkC],
    nextMemberId := 2, nextInventoryId := 2, nextBookingId := 2 }

/-- C2 witness: the cancellation-effects theorem evaluated on the
concrete post-booking store. -/
theorem cancel_booking_success_effects_witness :
    wBkC.is_active = false ∧
    (∃ b0, findBookingByRef wDB1 "r1" = some b0 ∧ b0.is_active = true ∧
      wBkC = { b0 with is_active := false }) ∧
    findBookingByRef wDB2 "r1" = some wBkC ∧
    (findInventory wDB1 wBkC.inventory_id = none →
      wDB2.inventory = wDB1.inventory) ∧
    (∀ item, findInventory wDB1 wBkC.inventory_id = some item →
      findInventory wDB2 wBkC.inventory_id =
        some { item with remaining_count := item.remaining_count + 1 }) ∧
    (∀ mem, findMember wDB1 wBkC.member_id = some mem →
      ∃ mem', findMember wDB2 wBkC.member_id = some mem' ∧
        (0 < mem.booking_count → mem'.booking_count = mem.booking_count - 1) ∧
        (0 ≤ mem.booking_count → 0 ≤ mem'.booking_count)) :=
  cancel_booking_success_effects wDB1 wDB2 "r1" wBkC (by decide)

/-! ### C6: the two cancellation failures are identical, and a second
cancel of the same reference fails without touching state -/

/-- C6: `cancel_booking` raises the identical `NotFound("active
booking")` error whether no booking carries the reference or the
booking exists but is inactive, in both cases leaving the state
unchanged; and after a successful cancel, cancelling the same reference
again hits the inactive case, so it returns that same error and changes
nothing (in particular `remaining_count` is not incremented twice). -/
theorem cancel_booking_notfound_identical
    (dbA : DBState) (refA : String)
    (hA : findBookingByRef dbA refA = none)
    (dbB : DBState) (refB : String) (bB : Booking)
    (hB : findBookingByRef dbB refB = some bB)
    (hBi : bB.is_active = false)
    (dbC dbC' : DBState) (refC : String) (bC : Booking)
    (hC : cancel_booking dbC refC = (dbC', .ok bC)) :
    cancel_booking dbA refA = (dbA, .error .notFoundActiveBooking) ∧
    cancel_booking dbB refB = (dbB, .error .notFoundActiveBooking) ∧
    cancel_booking dbC' refC = (dbC', .error .notFoundActiveBooking) := by
  refine ⟨?_, ?_, ?_⟩
  · unfold findBookingByRef at hA
    unfold cancel_booking
    rw [hA]
  · unfold findBookingByRef at hB
    unfold cancel_booking
    rw [hB]
    simp [hBi]
  · unfold cancel_booking at hC
    split at hC
    · simp at hC
    rename_i booking hb
    split at hC
    · simp at hC
    rename_i hact
    have hbref : booking.booking_reference = refC := by
      simpa using List.find?_some hb
    dsimp only at hC
    rw [Prod.mk.injEq] at hC
    obtain ⟨hdb, hbk⟩ := hC
    subst hdb
    have hbb : ∀ dbE : DBState,
        dbE.bookings = updateFirst (fun b => b.booking_reference == refC)
          (fun b => { b with is_active := false }) dbC.bookings →
        cancel_booking dbE refC = (dbE, .error .notFoundActiveBooking) := by
      intro dbE hE
      have hfind : dbE.bookings.find?
          (fun b => b.booking_reference == refC) =
          some { booking with is_active := false } := by
        rw [hE]
        exact find?_updateFirst hb (by simp [hbref])
      unfold cancel_booking
      rw [hfind]
      simp
    apply hbb
    split
    · split <;> rfl
    · split
      · split <;> rfl
      · split <;> rfl

/-- C6 witness: evaluated at an empty store with an unknown reference,
the store holding the already-inactive booking, and the double-cancel
of the concrete successful cancellation. -/
theorem cancel_booking_notfound_identical_witness :
    cancel_booking wDB "zz" = (wDB, .error .notFoundActiveBooking) ∧
    cancel_booking wDB2 "r1" = (wDB2, .error .notFoundActiveBooking) ∧
    cancel_booking wDB2 "r1" = (wDB2, .error .notFoundActiveBooking) :=
  cancel_booking_notfound_identical wDB "zz" (by decide)
    wDB2 "r1" wBkC (by decide) (by decide)
    wDB1 wDB2 "r1" wBkC (by decide)

/-- `date < date` is false under Python date ordering. -/
theorem dateLt_self (a : PyDate) : dateLt a a = false := by
  simp [dateLt]

/-! ### C7: order of the five `create_booking` preconditions and the
date-only expiry boundary -/

/-- C7: `create_booking` evaluates its checks in the order member
exists, item exists, active-booking count below 2, stock at least 1,
not expired, and the first failing check fixes the error — in
particular `QuotaExceeded` is reported whatever the stock or expiry,
and `OutOfStock` whatever the expiry; the expiry comparison is
date-only, so an item whose `expiration_date` equals today's date is
still booked while `dateLt expiration today` (e.g. expired yesterday)
yields `Expired`; every error leaves the state unchanged. -/
theorem create_booking_check_order
    (dbA : DBState) (mA iA : Nat) (refA : String) (nowA : PyDateTime)
    (hA : findMember dbA mA = none)
    (dbB : DBState) (mB iB : Nat) (refB : String) (nowB : PyDateTime)
    (memB : Member) (hB1 : findMember dbB mB = some memB)
    (hB2 : findInventory dbB iB = none)
    (dbC : DBState) (mC iC : Nat) (refC : String) (nowC : PyDateTime)
    (memC : Member) (itemC : Inventory)
    (hC1 : findMember dbC mC = some memC)
    (hC2 : findInventory dbC iC = some itemC)
    (hC3 : 2 ≤ activeBookingsCount dbC memC.id)
    (dbD : DBState) (mD iD : Nat) (refD : String) (nowD : PyDateTime)
    (memD : Member) (itemD : Inventory)
    (hD1 : findMember dbD mD = some memD)
    (hD2 : findInventory dbD iD = some itemD)
    (hD3 : activeBookingsCount dbD memD.id < 2)
    (hD4 : itemD.remaining_count < 1)
    (dbE : DBState) (mE iE : Nat) (refE : String) (nowE : PyDateTime)
    (memE : Member) (itemE : Inventory)
    (hE1 : findMember dbE mE = some memE)
    (hE2 : findInventory dbE iE = some itemE)
    (hE3 : activeBookingsCount dbE memE.id < 2)
    (hE4 : 1 ≤ itemE.remaining_count)
    (hE5 : dateLt itemE.expiration_date nowE.date = true)
    (dbF : DBState) (mF iF : Nat) (refF : String) (nowF : PyDateTime)
    (memF : Member) (itemF : Inventory)
    (hF1 : findMember dbF mF = some memF)
    (hF2 : findInventory dbF iF = some itemF)
    (hF3 : activeBookingsCount dbF memF.id < 2)
    (hF4 : 1 ≤ itemF.remaining_count)
    (hF5 : itemF.expiration_date = nowF.date) :
    create_booking dbA mA iA refA nowA = (dbA, .error .notFoundMember) ∧
    create_booking dbB mB iB refB nowB = (dbB, .error .notFoundItem) ∧
    create_booking dbC mC iC refC nowC = (dbC, .error .quotaExceeded) ∧
    create_booking dbD mD iD refD nowD = (dbD, .error .outOfStock) ∧
    create_booking dbE mE iE refE nowE = (dbE, .error .expired) ∧
    (create_booking dbF mF iF refF nowF).2 = .ok
      { id := dbF.nextBookingId, booking_reference := refF,
        member_id := memF.id, inventory_id := itemF.id,
        booking_datetime := nowF, is_active := true } := by
  unfold findMember at hA hB1 hC1 hD1 hE1 hF1
  unfold findInventory at hB2 hC2 hD2 hE2 hF2
  refine ⟨?_, ?_, ?_, ?_, ?_, ?_⟩
  · unfold create_booking
    rw [hA]
  · unfold create_booking
    rw [hB1, hB2]
  · unfold create_booking
    rw [hC1, hC2]
    dsimp only
    rw [if_pos hC3]
  · unfold create_booking
    rw [hD1, hD2]
    dsimp only
    rw [if_neg (Nat.not_le.mpr hD3), if_pos hD4]
  · unfold create_booking
    rw [hE1, hE2]
    dsimp only
    rw [if_neg (Nat.not_le.mpr hE3), if_neg (not_lt.mpr hE4), if_pos hE5]
  · unfold create_booking
    rw [hF1, hF2]
    dsimp only
    rw [if_neg (Nat.not_le.mpr hF3), if_neg (not_lt.mpr hF4),
      if_neg (by simp [hF5, dateLt_self])]

/-- The store whose only member already has two active bookings. -/
def wDBq : DBState :=
  { wDB with
    bookings := [wBk, { wBk with id := 2, booking_reference := "r2" }],
    nextBookingId := 3 }

/-- The store whose only item is out of stock and also long expired:
the booking attempt still reports `OutOfStock`, showing the stock check
precedes the expiry check. -/
def wItemO : Inventory :=
  { wItem with
    remaining_count := 0
    expiration_date := { year := 2020, month := 1, day := 1 } }

/-- The store holding only `wItemO`. -/
def wDBo : DBState := { wDB with inventory := [wItemO] }

/-- The store whose only item expired the day before `wNow`. -/
def wItemE : Inventory :=
  { wItem with expiration_date := { year := 2026, month := 10, day := 11 } }

/-- The store holding only `wItemE`. -/
def wDBe : DBState := { wDB with inventory := [wItemE] }

/-- The store whose only item expires exactly on the date of `wNow`. -/
def wItemT : Inventory :=
  { wItem with expiration_date := { year := 2026, month := 10, day := 12 } }

/-- The store holding only `wItemT`. -/
def wDBt : DBState := { wDB with inventory := [wItemT] }

/-- C7 witness: the ordered-checks theorem evaluated on six concrete
stores — unknown member, unknown item, quota reached, stock zero on an
expired item, item expired yesterday, item expiring today. -/
theorem create_booking_check_order_witness :
    create_booking wDB 9 1 "r9" wNow = (wDB, .error .notFoundMember) ∧
    create_booking wDB 1 9 "r9" wNow = (wDB, .error .notFoundItem) ∧
    create_booking wDBq 1 1 "r9" wNow = (wDBq, .error .quotaExceeded) ∧
    create_booking wDBo 1 1 "r9" wNow = (wDBo, .error .outOfStock) ∧
    create_booking wDBe 1 1 "r9" wNow = (wDBe, .error .expired) ∧
    (create_booking wDBt 1 1 "r9" wNow).2 = .ok
      { id := wDBt.nextBookingId, booking_reference := "r9",
        member_id := wMember.id, inventory_id := wItem.id,
        booking_datetime := wNow, is_active := true } :=
  create_booking_check_order
    wDB 9 1 "r9" wNow (by decide)
    wDB 1 9 "r9" wNow wMember (by decide) (by decide)
    wDBq 1 1 "r9" wNow wMember wItem (by decide) (by decide) (by decide)
    wDBo 1 1 "r9" wNow wMember wItemO
      (by decide) (by decide) (by decide) (by decide)
    wDBe 1 1 "r9" wNow wMember wItemE
      (by decide) (by decide) (by decide) (by decide) (by decide)
    wDBt 1 1 "r9" wNow wMember wItemT
      (by decide) (by decide) (by decide) (by decide) (by decide)

/-! ### C10: the ingestion endpoints are fail-closed behind the API key -/

/-- C10: for both upload endpoints, a missing `x-api-key` header, an
empty header, or an unset `API_KEY` configuration is rejected with a
401 error before any row is processed (the returned state is the input
state); in particular with no configured secret no header value passes,
and the empty-string header never passes even when the configured
secret is itself the empty string. -/
theorem upload_auth_fail_closed (cfg hdr : Option String)
    (rows : List MemberRow) (rows2 : List InventoryRow) (db db2 : DBState) :
    upload_members_endpoint none cfg rows db =
      (db, .error .unauthorized) ∧
    upload_members_endpoint (some "") cfg rows db =
      (db, .error .unauthorized) ∧
    upload_members_endpoint hdr none rows db =
      (db, .error .unauthorized) ∧
    upload_inventory_endpoint none cfg rows2 db2 =
      (db2, .error .unauthorized) ∧
    upload_inventory_endpoint (some "") cfg rows2 db2 =
      (db2, .error .unauthorized) ∧
    upload_inventory_endpoint hdr none rows2 db2 =
      (db2, .error .unauthorized) ∧
    statusCode .unauthorized = 401 := by
  refine ⟨?_, ?_, ?_, ?_, ?_, ?_, rfl⟩ <;>
    first
      | rfl
      | (cases hdr with
          | none => rfl
          | some k =>
            by_cases hk : k = "" <;>
              simp [upload_members_endpoint, upload_inventory_endpoint,
                api_key_auth, hk])

/-! ### C9: ingestion skips unparseable rows, defaults bad counts, and
reports exactly the inserted rows -/

/-- Whether a member row's `date_joined` parses in an accepted format. -/
def validMemberRow (r : MemberRow) : Bool :=
  (parse_member_date (pyStrip (r.date_joined.getD ""))).isSome

/-- Whether an inventory row's `expiration_date` parses. -/
def validInventoryRow (r : InventoryRow) : Bool :=
  (parse_inventory_date (pyStrip (r.expiration_date.getD ""))).isSome

/-- The members the upload inserts, stated per the spec's ingestion
contract: keep exactly the rows whose date parses, in input order, with
trimmed text fields, a count that defaults to 0 when non-numeric, and
sequentially assigned ids.  This definition follows the spec's words
and is compared against the source-translated loop. -/
def specMembersInserted : List MemberRow → Nat → List Member
  | [], _ => []
  | r :: rest, nid =>
    match parse_member_date (pyStrip (r.date_joined.getD "")) with
    | none => specMembersInserted rest nid
    | some dt =>
      { id := nid
        name := pyStrip (r.name.getD "")
        surname := pyStrip (r.surname.getD "")
        booking_count := (pythonInt (pyStrip (r.booking_count.getD "0"))).getD 0
        date_joined := dt } :: specMembersInserted rest (nid + 1)

/-- The inventory rows the upload inserts, stated per the spec's
ingestion contract; compared against the source-translated loop. -/
def specInventoryInserted : List InventoryRow → Nat → List Inventory
  | [], _ => []
  | r :: rest, nid =>
    match parse_inventory_date (pyStrip (r.expiration_date.getD "")) with
    | none => specInventoryInserted rest nid
    | some d =>
      { id := nid
        title := pyStrip (r.title.getD "")
        description := pyStrip (r.description.getD "")
        remaining_count := (pythonInt (pyStrip (r.remaining_count.getD "0"))).getD 0
        expiration_date := d } :: specInventoryInserted rest (nid + 1)

/-- The spec-side member list has exactly one entry per valid row. -/
theorem specMembersInserted_length (rows : List MemberRow) :
    ∀ nid, (specMembersInserted rows nid).length =
      (rows.filter validMemberRow).length := by
  induction rows with
  | nil => intro nid; rfl
  | cons r rest ih =>
    intro nid
    unfold specMembersInserted
    cases hp : parse_member_date (pyStrip (r.date_joined.getD "")) with
    | none => simp [List.filter_cons, validMemberRow, hp, ih]
    | some dt => simp [List.filter_cons, validMemberRow, hp, ih]

/-- The spec-side inventory list has exactly one entry per valid row. -/
theorem specInventoryInserted_length (rows : List InventoryRow) :
    ∀ nid, (specInventoryInserted rows nid).length =
      (rows.filter validInventoryRow).length := by
  induction rows with
  | nil => intro nid; rfl
  | cons r rest ih =>
    intro nid
    unfold specInventoryInserted
    cases hp : parse_inventory_date (pyStrip (r.expiration_date.getD "")) with
    | none => simp [List.filter_cons, validInventoryRow, hp, ih]
    | some d => simp [List.filter_cons, validInventoryRow, hp, ih]

/-- The source member-upload loop computes the spec-side list and count. -/
theorem uploadMembersLoop_spec (rows : List MemberRow) :
    ∀ (db : DBState) (n : Nat),
    uploadMembersLoop rows db n =
      ({ db with
          members := db.members ++ specMembersInserted rows db.nextMemberId
          nextMemberId :=
            db.nextMemberId + (rows.filter validMemberRow).length },
       n + (rows.filter validMemberRow).length) := by
  induction rows with
  | nil => intro db n; simp [uploadMembersLoop, specMembersInserted]
  | cons r rest ih =>
    intro db n
    unfold uploadMembersLoop
    cases hp : parse_member_date (pyStrip (r.date_joined.getD "")) with
    | none =>
      dsimp only
      rw [ih]
      simp [specMembersInserted, List.filter_cons, validMemberRow, hp]
    | some dt =>
      dsimp only
      rw [ih]
      simp [specMembersInserted, List.filter_cons, validMemberRow, hp,
        List.append_assoc, Nat.add_assoc, Nat.add_comm, Nat.add_left_comm]

/-- The source inventory-upload loop computes the spec-side list and count. -/
theorem uploadInventoryLoop_spec (rows : List InventoryRow) :
    ∀ (db : DBState) (n : Nat),
    uploadInventoryLoop rows db n =
      ({ db with
          inventory :=
            db.inventory ++ specInventoryInserted rows db.nextInventoryId
          nextInventoryId :=
            db.nextInventoryId + (rows.filter validInventoryRow).length },
       n + (rows.filter validInventoryRow).length) := by
  induction rows with
  | nil => intro db n; simp [uploadInventoryLoop, specInventoryInserted]
  | cons r rest ih =>
    intro db n
    unfold uploadInventoryLoop
    cases hp : parse_inventory_date (pyStrip (r.expiration_date.getD "")) with
    | none =>
      dsimp only
      rw [ih]
      simp [specInventoryInserted, List.filter_cons, validInventoryRow, hp]
    | some d =>
      dsimp only
      rw [ih]
      simp [specInventoryInserted, List.filter_cons, validInventoryRow, hp,
        List.append_assoc, Nat.add_assoc, Nat.add_comm, Nat.add_left_comm]

/-- C9: each upload processes the whole batch, silently skipping every
row whose date field fails to parse: the resulting store extends the
input store by exactly the spec-side list of valid rows (one inserted
row per valid input row, in order, all other tables untouched), the
returned processed-row count equals the number of rows inserted, and a
valid row whose count field is non-numeric is inserted with count 0. -/
theorem upload_ingestion_matches_spec
    (rows : List MemberRow) (db : DBState)
    (rows2 : List InventoryRow) (db2 : DBState)
    (r3 : MemberRow) (h3v : validMemberRow r3 = true)
    (h3n : pythonInt (pyStrip (r3.booking_count.getD "0")) = none) :
    upload_members_file rows db =
      ({ db with
          members := db.members ++ specMembersInserted rows db.nextMemberId
          nextMemberId :=
            db.nextMemberId + (rows.filter validMemberRow).length },
       (rows.filter validMemberRow).length) ∧
    (specMembersInserted rows db.nextMemberId).length =
      (rows.filter validMemberRow).length ∧
    upload_inventory_file rows2 db2 =
      ({ db2 with
          inventory :=
            db2.inventory ++ specInventoryInserted rows2 db2.nextInventoryId
          nextInventoryId :=
            db2.nextInventoryId + (rows2.filter validInventoryRow).length },
       (rows2.filter validInventoryRow).length) ∧
    (specInventoryInserted rows2 db2.nextInventoryId).length =
      (rows2.filter validInventoryRow).length ∧
    (∀ m ∈ specMembersInserted [r3] 1, m.booking_count = 0) := by
  refine ⟨?_, specMembersInserted_length rows db.nextMemberId, ?_,
    specInventoryInserted_length rows2 db2.nextInventoryId, ?_⟩
  · simpa using uploadMembersLoop_spec rows db 0
  · simpa using uploadInventoryLoop_spec rows2 db2 0
  · intro m hm
    unfold validMemberRow at h3v
    unfold specMembersInserted at hm
    cases hp : parse_member_date (pyStrip (r3.date_joined.getD "")) with
    | none => rw [hp] at h3v; simp at h3v
    | some dt =>
      rw [hp] at hm
      dsimp only [specMembersInserted] at hm
      rcases List.mem_cons.mp hm with rfl | hmem
      · simp [h3n]
      · simp at hmem

/-- A member row with a parseable date (and padding to trim). -/
def wRowGood : MemberRow :=
  { name := some " A ", surname := some "B", booking_count := some "1",
    date_joined := some "2024-01-01 10:00:00" }

/-- A member row whose date fails both accepted formats. -/
def wRowBad : MemberRow :=
  { name := some "C", surname := some "D", booking_count := some "1",
    date_joined := some "not-a-date" }

/-- A member row with a valid date and non-numeric count field. -/
def wRowNoNum : MemberRow :=
  { name := some "E", surname := some "F", booking_count := some "abc",
    date_joined := some "2024-01-01T10:00:00" }

/-- An inventory row with a parseable `DD/MM/YYYY` date. -/
def wRowInv : InventoryRow :=
  { title := some "T", description := some "D", remaining_count := some "7",
    expiration_date := some "31/12/2030" }

/-- An inventory row with an unparseable month. -/
def wRowInvBad : InventoryRow :=
  { title := some "U", description := some "V", remaining_count := some "7",
    expiration_date := some "31/13/2030" }

/-- C9 witness: the ingestion theorem evaluated on a batch holding one
valid and one malformed member row, one valid and one malformed
inventory row, and a valid member row with non-numeric count. -/
theorem upload_ingestion_matches_spec_witness :
    upload_members_file [wRowGood, wRowBad] wDB =
      ({ wDB with
          members := wDB.members ++
            specMembersInserted [wRowGood, wRowBad] wDB.nextMemberId
          nextMemberId := wDB.nextMemberId +
            ([wRowGood, wRowBad].filter validMemberRow).length },
       ([wRowGood, wRowBad].filter validMemberRow).length) ∧
    (specMembersInserted [wRowGood, wRowBad] wDB.nextMemberId).length =
      ([wRowGood, wRowBad].filter validMemberRow).length ∧
    upload_inventory_file [wRowInv, wRowInvBad] wDB =
      ({ wDB with
          inventory := wDB.inventory ++
            specInventoryInserted [wRowInv, wRowInvBad] wDB.nextInventoryId
          nextInventoryId := wDB.nextInventoryId +
            ([wRowInv, wRowInvBad].filter validInventoryRow).length },
       ([wRowInv, wRowInvBad].filter validInventoryRow).length) ∧
    (specInventoryInserted [wRowInv, wRowInvBad] wDB.nextInventoryId).length =
      ([wRowInv, wRowInvBad].filter validInventoryRow).length ∧
    (∀ m ∈ specMembersInserted [wRowNoNum] 1, m.booking_count = 0) :=
  upload_ingestion_matches_spec [wRowGood, wRowBad] wDB
    [wRowInv, wRowInvBad] wDB wRowNoNum (by decide) (by decide)

/-! ### C3: the cached `booking_count` against the derived active count -/

/-- The spec invariant: every member's cached `booking_count` equals
the number of active bookings that reference it. -/
def countInvariant (db : DBState) : Prop :=
  ∀ m ∈ db.members, m.booking_count = (activeBookingsCount db m.id : Int)

instance (db : DBState) : Decidable (countInvariant db) :=
  List.decidableBAll _ db.members

/-- A member row whose `booking_count` column carries the number 5. -/
def wRowBC5 : MemberRow :=
  { name := some "A", surname := some "B", booking_count := some "5",
    date_joined := some "2024-01-01 10:00:00" }

/-- C3 counterexample: ingesting a member row whose `booking_count`
field is "5" yields a member with cached count 5 and zero bookings, so
the invariant fails immediately after this core operation. -/
theorem upload_members_breaks_count_invariant :
    ¬ countInvariant (upload_members_file [wRowBC5] wDB).1 := by decide

/-- Inserting one active booking for `member_id` while incrementing the
cached count of the (unique) member with that id preserves the count
invariant. -/
theorem countInvariant_insert_booking
    (db db' : DBState) (member_id : Nat) (member : Member) (nb : Booking)
    (hm : db.members.find? (fun m2 => m2.id == member_id) = some member)
    (hnd : (db.members.map (fun m2 => m2.id)).Nodup)
    (hinv : countInvariant db)
    (hbooks : db'.bookings = db.bookings ++ [nb])
    (hnbm : nb.member_id = member_id)
    (hnba : nb.is_active = true)
    (hmems : db'.members = updateFirst (fun m2 => m2.id == member_id)
      (fun m2 => { m2 with booking_count := m2.booking_count + 1 })
      db.members) :
    countInvariant db' := by
  have hmid : member.id = member_id := by simpa using List.find?_some hm
  have hcnt : ∀ j, activeBookingsCount db' j =
      activeBookingsCount db j + (if member_id = j then 1 else 0) := by
    intro j
    by_cases hj : member_id = j <;>
      simp [activeBookingsCount, hbooks, List.filter_append,
        List.filter_cons, hnbm, hnba, hj]
  obtain ⟨M₁, M₂, hsplit, hnomatch, hupd⟩ := updateFirst_split
    (f := fun m2 => { m2 with booking_count := m2.booking_count + 1 }) hm
  have hsub : ((member :: M₂).map (fun m2 => m2.id)).Nodup := by
    have h0 := hnd
    rw [hsplit, List.map_append] at h0
    exact (List.nodup_append.mp h0).2.1
  have hnotin : member.id ∉ M₂.map (fun m2 => m2.id) := by
    rw [List.map_cons] at hsub
    exact (List.nodup_cons.mp hsub).1
  have hM₂ : ∀ x ∈ M₂, x.id ≠ member_id := by
    intro x hx he
    apply hnotin
    rw [hmid, ← he]
    exact List.mem_map_of_mem _ hx
  intro m' hm'
  rw [hmems, hupd] at hm'
  rcases List.mem_append.mp hm' with h1 | h2
  · have hne : m'.id ≠ member_id := by simpa using hnomatch m' h1
    have hmem0 : m' ∈ db.members := by
      rw [hsplit]
      exact List.mem_append.mpr (Or.inl h1)
    rw [hcnt m'.id, if_neg (fun he => hne he.symm)]
    simpa using hinv m' hmem0
  · rcases List.mem_cons.mp h2 with rfl | h3
    · have hbc := hinv member (by
        rw [hsplit]
        exact List.mem_append.mpr (Or.inr (List.mem_cons_self ..)))
      show member.booking_count + 1 = _
      rw [hcnt, hmid, if_pos rfl, hbc, hmid]
      push_cast
      ring
    · have hne : m'.id ≠ member_id := hM₂ m' h3
      have hmem0 : m' ∈ db.members := by
        rw [hsplit]
        exact List.mem_append.mpr (Or.inr (List.mem_cons_of_mem _ h3))
      rw [hcnt m'.id, if_neg (fun he => hne he.symm)]
      simpa using hinv m' hmem0

/-- Deactivating one active booking while applying the clamped
decrement to the cached count of the booking's member preserves the
count invariant. -/
theorem countInvariant_cancel_booking
    (db db' : DBState) (ref : String) (booking : Booking)
    (hb : db.bookings.find? (fun b => b.booking_reference == ref) =
      some booking)
    (hactive : booking.is_active = true)
    (hnd : (db.members.map (fun m2 => m2.id)).Nodup)
    (hinv : countInvariant db)
    (hbooks : db'.bookings =
      updateFirst (fun b => b.booking_reference == ref)
        (fun b => { b with is_active := false }) db.bookings)
    (hmems : db'.members =
      (match db.members.find? (fun m2 => m2.id == booking.member_id) with
        | none => db.members
        | some mem =>
          if 0 < mem.booking_count then
            updateFirst (fun m2 => m2.id == booking.member_id)
              (fun m2 => { m2 with booking_count := m2.booking_count - 1 })
              db.members
          else db.members)) :
    countInvariant db' := by
  have hbmem : booking ∈ db.bookings := List.mem_of_find?_eq_some hb
  obtain ⟨B₁, B₂, hbsplit, hbno, hbupd⟩ := updateFirst_split
    (f := fun b => { b with is_active := false }) hb
  have hcnt : ∀ j, activeBookingsCount db j =
      activeBookingsCount db' j + (if booking.member_id = j then 1 else 0) := by
    intro j
    unfold activeBookingsCount
    rw [hbooks, hbupd, hbsplit]
    by_cases hj : booking.member_id = j <;>
      (simp [List.filter_append, List.filter_cons, hactive, hj]
       try omega)
  have hone : 1 ≤ activeBookingsCount db booking.member_id := by
    have hmemf : booking ∈ db.bookings.filter
        (fun b => b.member_id == booking.member_id && b.is_active) :=
      List.mem_filter.mpr ⟨hbmem, by simp [hactive]⟩
    exact List.length_pos_of_mem hmemf
  intro m' hm'
  rw [hmems] at hm'
  cases hfm : db.members.find? (fun m2 => m2.id == booking.member_id) with
  | none =>
    rw [hfm] at hm'
    dsimp only at hm'
    have hne : m'.id ≠ booking.member_id := by
      simpa using List.find?_eq_none.mp hfm m' hm'
    have hv := hinv m' hm'
    rw [hcnt m'.id, if_neg (fun he => hne he.symm)] at hv
    simpa using hv
  | some mem =>
    rw [hfm] at hm'
    dsimp only at hm'
    have hmemid : mem.id = booking.member_id := by
      simpa using List.find?_some hfm
    have hmemmem : mem ∈ db.members := List.mem_of_find?_eq_some hfm
    have hbc : mem.booking_count = (activeBookingsCount db mem.id : Int) :=
      hinv mem hmemmem
    have hpos : 0 < mem.booking_count := by
      rw [hbc, hmemid]
      exact_mod_cast hone
    rw [if_pos hpos] at hm'
    obtain ⟨M₁, M₂, hms, hmno, hmupd⟩ := updateFirst_split
      (f := fun m2 => { m2 with booking_count := m2.booking_count - 1 }) hfm
    rw [hmupd] at hm'
    have hsub : ((mem :: M₂).map (fun m2 => m2.id)).Nodup := by
      have h0 := hnd
      rw [hms, List.map_append] at h0
      exact (List.nodup_append.mp h0).2.1
    have hnotin : mem.id ∉ M₂.map (fun m2 => m2.id) := by
      rw [List.map_cons] at hsub
      exact (List.nodup_cons.mp hsub).1
    rcases List.mem_append.mp hm' with h1 | h2
    · have hne : m'.id ≠ booking.member_id := by simpa using hmno m' h1
      have hmem0 : m' ∈ db.members := by
        rw [hms]
        exact List.mem_append.mpr (Or.inl h1)
      have hv := hinv m' hmem0
      rw [hcnt m'.id, if_neg (fun he => hne he.symm)] at hv
      simpa using hv
    · rcases List.mem_cons.mp h2 with rfl | h3
      · show mem.booking_count - 1 = _
        have hc := hcnt mem.id
        rw [if_pos hmemid.symm] at hc
        rw [hbc, hc]
        push_cast
        ring
      · have hne : m'.id ≠ booking.member_id := by
          intro he
          apply hnotin
          rw [hmemid, ← he]
          exact List.mem_map_of_mem _ h3
        have hmem0 : m' ∈ db.members := by
          rw [hms]
          exact List.mem_append.mpr (Or.inr (List.mem_cons_of_mem _ h3))
        have hv := hinv m' hmem0
        rw [hcnt m'.id, if_neg (fun he => hne he.symm)] at hv
        simpa using hv

/-- C3 amended: the booking-count invariant is preserved by
`create_booking` and `cancel_booking` (on stores with unique member
ids), but not by member-row ingestion, which copies `booking_count`
verbatim from the row. -/
theorem count_invariant_preserved
    (db1 db1' : DBState) (m i : Nat) (ref : String) (now : PyDateTime)
    (b1 : Booking)
    (hnd1 : (db1.members.map (fun m2 => m2.id)).Nodup)
    (hinv1 : countInvariant db1)
    (hc : create_booking db1 m i ref now = (db1', .ok b1))
    (db2 db2' : DBState) (ref2 : String) (b2 : Booking)
    (hnd2 : (db2.members.map (fun m2 => m2.id)).Nodup)
    (hinv2 : countInvariant db2)
    (hx : cancel_booking db2 ref2 = (db2', .ok b2)) :
    countInvariant db1' ∧ countInvariant db2' := by
  constructor
  · unfold create_booking at hc
    split at hc
    · simp at hc
    rename_i member hm
    split at hc
    · simp at hc
    rename_i item hi
    have hmemid : member.id = m := by simpa using List.find?_some hm
    have hitemid : item.id = i := by simpa using List.find?_some hi
    split at hc
    · simp at hc
    split at hc
    · simp at hc
    split at hc
    · simp at hc
    simp only [hmemid, hitemid, Prod.mk.injEq, Except.ok.injEq] at hc
    obtain ⟨hdb, hbk⟩ := hc
    subst hdb
    exact countInvariant_insert_booking db1 _ m member _
      (hmemid ▸ hm) hnd1 hinv1 rfl rfl rfl rfl
  · unfold cancel_booking at hx
    split at hx
    · simp at hx
    rename_i booking hb
    split at hx
    · simp at hx
    rename_i hact
    have hactive : booking.is_active = true := by
      revert hact
      cases booking.is_active <;> simp
    dsimp only at hx
    cases hinvf : List.find? (fun it => it.id == booking.inventory_id)
        db2.inventory with
    | none =>
      rw [hinvf] at hx
      dsimp only at hx
      cases hmemf : List.find? (fun m2 => m2.id == booking.member_id)
          db2.members with
      | none =>
        rw [hmemf] at hx
        dsimp only at hx
        simp only [Prod.mk.injEq, Except.ok.injEq] at hx
        obtain ⟨hdb, hbk⟩ := hx
        subst hdb
        refine countInvariant_cancel_booking db2 _ ref2 booking hb hactive
          hnd2 hinv2 rfl ?_
        rw [hmemf]
      | some mem =>
        rw [hmemf] at hx
        dsimp only at hx
        by_cases hpos : 0 < mem.booking_count
        · rw [if_pos hpos] at hx
          simp only [Prod.mk.injEq, Except.ok.injEq] at hx
          obtain ⟨hdb, hbk⟩ := hx
          subst hdb
          refine countInvariant_cancel_booking db2 _ ref2 booking hb hactive
            hnd2 hinv2 rfl ?_
          simp [hmemf, hpos]
        · rw [if_neg hpos] at hx
          simp only [Prod.mk.injEq, Except.ok.injEq] at hx
          obtain ⟨hdb, hbk⟩ := hx
          subst hdb
          refine countInvariant_cancel_booking db2 _ ref2 booking hb hactive
            hnd2 hinv2 rfl ?_
          simp [hmemf, hpos]
    | some itm =>
      rw [hinvf] at hx
      dsimp only at hx
      cases hmemf : List.find? (fun m2 => m2.id == booking.member_id)
          db2.members with
      | none =>
        rw [hmemf] at hx
        dsimp only at hx
        simp only [Prod.mk.injEq, Except.ok.injEq] at hx
        obtain ⟨hdb, hbk⟩ := hx
        subst hdb
        refine countInvariant_cancel_booking db2 _ ref2 booking hb hactive
          hnd2 hinv2 rfl ?_
        rw [hmemf]
      | some mem =>
        rw [hmemf] at hx
        dsimp only at hx
        by_cases hpos : 0 < mem.booking_count
        · rw [if_pos hpos] at hx
          simp only [Prod.mk.injEq, Except.ok.injEq] at hx
          obtain ⟨hdb, hbk⟩ := hx
          subst hdb
          refine countInvariant_cancel_booking db2 _ ref2 booking hb hactive
            hnd2 hinv2 rfl ?_
          simp [hmemf, hpos]
        · rw [if_neg hpos] at hx
          simp only [Prod.mk.injEq, Except.ok.injEq] at hx
          obtain ⟨hdb, hbk⟩ := hx
          subst hdb
          refine countInvariant_cancel_booking db2 _ ref2 booking hb hactive
            hnd2 hinv2 rfl ?_
          simp [hmemf, hpos]

/-- C3 witness: the preservation theorem evaluated on the concrete
booking and its cancellation. -/
theorem count_invariant_preserved_witness :
    countInvariant wDB1 ∧ countInvariant wDB2 :=
  count_invariant_preserved wDB wDB1 1 1 "r1" wNow wBk (by decide)
    (by decide) (by decide) wDB1 wDB2 "r1" wBkC (by decide) (by decide)
    (by decide)

/-! ### C4: non-negativity of `remaining_count` -/

/-- The spec invariant: no inventory row has negative stock. -/
def stockNonneg (db : DBState) : Prop :=
  ∀ it ∈ db.inventory, 0 ≤ it.remaining_count

instance (db : DBState) : Decidable (stockNonneg db) :=
  List.decidableBAll _ db.inventory

/-- An inventory row whose `remaining_count` column carries "-3". -/
def wRowNeg3 : InventoryRow :=
  { title := some "T", description := some "D",
    remaining_count := some "-3", expiration_date := some "31/12/2030" }

/-- C4 counterexample: ingesting an inventory row whose
`remaining_count` field is "-3" persists an item with stock -3, so
`remaining_count >= 0` does not hold after every core operation. -/
theorem upload_inventory_breaks_stock_nonneg :
    ¬ stockNonneg (upload_inventory_file [wRowNeg3] wDB).1 := by decide

/-- C4 amended: stock non-negativity is preserved by `create_booking`
(which only decrements stock it has checked to be at least 1) and by
`cancel_booking` (which only increments), and `create_booking` on an
item with `remaining_count = 0` returns `OutOfStock` and mutates
nothing; inventory-row ingestion, however, copies a negative numeric
`remaining_count` verbatim from the row. -/
theorem stock_nonneg_preserved
    (db1 db1' : DBState) (m i : Nat) (ref : String) (now : PyDateTime)
    (b1 : Booking)
    (hs1 : stockNonneg db1)
    (hc : create_booking db1 m i ref now = (db1', .ok b1))
    (db2 db2' : DBState) (ref2 : String) (b2 : Booking)
    (hs2 : stockNonneg db2)
    (hx : cancel_booking db2 ref2 = (db2', .ok b2))
    (db3 : DBState) (m3 i3 : Nat) (ref3 : String) (now3 : PyDateTime)
    (mem3 : Member) (item3 : Inventory)
    (h31 : findMember db3 m3 = some mem3)
    (h32 : findInventory db3 i3 = some item3)
    (h33 : activeBookingsCount db3 mem3.id < 2)
    (h34 : item3.remaining_count = 0) :
    stockNonneg db1' ∧ stockNonneg db2' ∧
    create_booking db3 m3 i3 ref3 now3 = (db3, .error .outOfStock) := by
  refine ⟨?_, ?_, ?_⟩
  · unfold create_booking at hc
    split at hc
    · simp at hc
    rename_i member hm
    split at hc
    · simp at hc
    rename_i item hi
    have hitemid : item.id = i := by simpa using List.find?_some hi
    split at hc
    · simp at hc
    rename_i hq
    split at hc
    · simp at hc
    rename_i hst
    split at hc
    · simp at hc
    rename_i he
    simp only [hitemid, Prod.mk.injEq, Except.ok.injEq] at hc
    obtain ⟨hdb, hbk⟩ := hc
    subst hdb
    obtain ⟨I₁, I₂, hisplit, hino, hiupd⟩ := updateFirst_split
      (f := fun it => { it with remaining_count := it.remaining_count - 1 })
      hi
    intro it hit
    rw [hiupd] at hit
    rcases List.mem_append.mp hit with h1 | h2
    · exact hs1 it (by rw [hisplit]; exact List.mem_append.mpr (Or.inl h1))
    · rcases List.mem_cons.mp h2 with rfl | h3
      · have h1le : 1 ≤ item.remaining_count := not_lt.mp hst
        show 0 ≤ item.remaining_count - 1
        omega
      · exact hs1 it (by
          rw [hisplit]
          exact List.mem_append.mpr (Or.inr (List.mem_cons_of_mem _ h3)))
  · unfold cancel_booking at hx
    split at hx
    · simp at hx
    rename_i booking hb
    split at hx
    · simp at hx
    rename_i hact
    dsimp only at hx
    rw [Prod.mk.injEq] at hx
    obtain ⟨hdb, hbk⟩ := hx
    subst hdb
    have hchar : ∀ dbE : DBState,
        dbE.inventory =
          (match List.find? (fun it2 => it2.id == booking.inventory_id)
              db2.inventory with
            | none => db2.inventory
            | some _ =>
              updateFirst (fun it2 => it2.id == booking.inventory_id)
                (fun it2 =>
                  { it2 with remaining_count := it2.remaining_count + 1 })
                db2.inventory) →
        stockNonneg dbE := by
      intro dbE hE it hit
      rw [hE] at hit
      cases hfi : List.find? (fun it2 => it2.id == booking.inventory_id)
          db2.inventory with
      | none =>
        rw [hfi] at hit
        exact hs2 it hit
      | some a0 =>
        rw [hfi] at hit
        rcases mem_updateFirst hit with h1 | ⟨a, ha, hpa, rfl⟩
        · exact hs2 it h1
        · have := hs2 a ha
          show 0 ≤ a.remaining_count + 1
          omega
    apply hchar
    split <;> (try split) <;> (try split) <;> rfl
  · unfold findMember at h31
    unfold findInventory at h32
    unfold create_booking
    rw [h31, h32]
    dsimp only
    rw [if_neg (Nat.not_le.mpr h33), if_pos (by rw [h34]; norm_num)]

/-- C4 witness: stock non-negativity evaluated on the concrete booking,
its cancellation, and the out-of-stock attempt. -/
theorem stock_nonneg_preserved_witness :
    stockNonneg wDB1 ∧ stockNonneg wDB2 ∧
    create_booking wDBo 1 1 "r4" wNow = (wDBo, .error .outOfStock) :=
  stock_nonneg_preserved wDB wDB1 1 1 "r1" wNow wBk (by decide) (by decide)
    wDB1 wDB2 "r1" wBkC (by decide) (by decide)
    wDBo 1 1 "r4" wNow wMember wItemO (by decide) (by decide) (by decide)
    (by decide)

/-! ### C5: the per-member quota of 2 -/

/-- The claim's cached-count reading: no member's `booking_count`
field exceeds 2. -/
def cachedQuotaOk (db : DBState) : Prop :=
  ∀ m ∈ db.members, m.booking_count ≤ 2

instance (db : DBState) : Decidable (cachedQuotaOk db) :=
  List.decidableBAll _ db.members

/-- A member row whose `booking_count` column carries the number 7. -/
def wRowBC7 : MemberRow :=
  { name := some "A", surname := some "B", booking_count := some "7",
    date_joined := some "2024-01-01 10:00:00" }

/-- C5 counterexample: ingesting a member row whose `booking_count`
field is "7" persists a member with cached count 7 > 2, so the
booking-count bound does not hold after every core operation. -/
theorem upload_members_breaks_quota_cache :
    ¬ cachedQuotaOk (upload_members_file [wRowBC7] wDB).1 := by decide

/-- The derived quota invariant: no member id has more than 2 active
bookings. -/
def activeQuotaOk (db : DBState) : Prop :=
  ∀ j, activeBookingsCount db j ≤ 2

/-- C5 amended: the bound of at most 2 simultaneous active bookings
per member is enforced by `create_booking`'s derived-count check and
preserved by both rule-engine operations, and a third booking attempt
when 2 are active returns `QuotaExceeded` leaving the state unchanged;
the cached `booking_count` field itself can exceed 2 after member-row
ingestion, which copies it verbatim from the row. -/
theorem active_quota_preserved
    (db1 db1' : DBState) (m i : Nat) (ref : String) (now : PyDateTime)
    (b1 : Booking)
    (hq1 : activeQuotaOk db1)
    (hc : create_booking db1 m i ref now = (db1', .ok b1))
    (db2 db2' : DBState) (ref2 : String) (b2 : Booking)
    (hq2 : activeQuotaOk db2)
    (hx : cancel_booking db2 ref2 = (db2', .ok b2))
    (db3 : DBState) (m3 i3 : Nat) (ref3 : String) (now3 : PyDateTime)
    (mem3 : Member) (item3 : Inventory)
    (h31 : findMember db3 m3 = some mem3)
    (h32 : findInventory db3 i3 = some item3)
    (h33 : activeBookingsCount db3 mem3.id = 2) :
    activeQuotaOk db1' ∧ activeQuotaOk db2' ∧
    create_booking db3 m3 i3 ref3 now3 = (db3, .error .quotaExceeded) := by
  refine ⟨?_, ?_, ?_⟩
  · unfold create_booking at hc
    split at hc
    · simp at hc
    rename_i member hm
    split at hc
    · simp at hc
    rename_i item hi
    have hmemid : member.id = m := by simpa using List.find?_some hm
    split at hc
    · simp at hc
    rename_i hqc
    split at hc
    · simp at hc
    rename_i hst
    split at hc
    · simp at hc
    rename_i he
    simp only [hmemid, Prod.mk.injEq, Except.ok.injEq] at hc
    obtain ⟨hdb, hbk⟩ := hc
    subst hdb
    have hlt : activeBookingsCount db1 m < 2 := by
      rw [← hmemid]
      exact Nat.not_le.mp hqc
    intro j
    have hfil : ∀ (l : List Booking) (nb : Booking),
        nb.member_id = m → nb.is_active = true →
        (List.filter (fun b => b.member_id == j && b.is_active)
            (l ++ [nb])).length =
          (List.filter (fun b => b.member_id == j && b.is_active) l).length +
            (if m = j then 1 else 0) := by
      intro l nb hnm hna
      by_cases hj : m = j <;>
        simp [List.filter_append, List.filter_cons, hnm, hna, hj]
    show (List.filter _ _).length ≤ 2
    rw [hfil db1.bookings _ rfl rfl]
    have h2 := hq1 j
    by_cases hj : m = j
    · rw [if_pos hj]
      rw [hj] at hlt
      unfold activeBookingsCount at hlt
      omega
    · rw [if_neg hj]
      unfold activeBookingsCount at h2
      omega
  · unfold cancel_booking at hx
    split at hx
    · simp at hx
    rename_i booking hb
    split at hx
    · simp at hx
    rename_i hact
    dsimp only at hx
    rw [Prod.mk.injEq] at hx
    obtain ⟨hdb, hbk⟩ := hx
    subst hdb
    obtain ⟨B₁, B₂, hbsplit, hbno, hbupd⟩ := updateFirst_split
      (f := fun b => { b with is_active := false }) hb
    have hchar : ∀ dbE : DBState,
        dbE.bookings =
          updateFirst (fun b => b.booking_reference == ref2)
            (fun b => { b with is_active := false }) db2.bookings →
        activeQuotaOk dbE := by
      intro dbE hE j
      have hle : activeBookingsCount dbE j ≤ activeBookingsCount db2 j := by
        unfold activeBookingsCount
        rw [hE, hbupd, hbsplit]
        by_cases hpb : (booking.member_id == j && booking.is_active) = true <;>
          simp [List.filter_append, List.filter_cons, hpb]
      exact le_trans hle (hq2 j)
    apply hchar
    split <;> (try split) <;> (try split) <;> rfl
  · unfold findMember at h31
    unfold findInventory at h32
    unfold create_booking
    rw [h31, h32]
    dsimp only
    rw [if_pos (by omega)]

/-- C5 witness: the quota theorem evaluated on the concrete booking,
its cancellation, and a third booking attempt against a member who
already holds two active bookings. -/
theorem active_quota_preserved_witness :
    activeQuotaOk wDB1 ∧ activeQuotaOk wDB2 ∧
    create_booking wDBq 1 1 "r5" wNow = (wDBq, .error .quotaExceeded) :=
  active_quota_preserved wDB wDB1 1 1 "r1" wNow wBk
    (fun j => le_trans (List.length_filter_le _ _) (by decide)) (by decide)
    wDB1 wDB2 "r1" wBkC
    (fun j => le_trans (List.length_filter_le _ _) (by decide)) (by decide)
    wDBq 1 1 "r5" wNow wMember wItem (by decide) (by decide) (by decide)
